import Mathlib

/-!
# openqueue — durable step-execution engine: verification of spec claims

Shallow embedding of the repository's durable step engine:

* `Job.ts` — zod schemas (`StatusSchema`, `StepStateSchema`, `AttemptSchema`,
  `ActiveJobSchema`) modelled as parsers over a JSON-like `Value` type, and
  `ActiveJob.prepare` (first-touch wrapping).
* `JobRunner.ts` (src/unnamed/part_000) — `JobRunner`, `StepRunner`,
  `RunnerContext`, `ContextLogger`, `ContextAttempt`: the live engine wired to
  the dispatcher.  Modelled as pure state-passing functions over a `World`
  (job payload + backend operation log) and a `Ctx` (per-invocation context).
* `Dispatcher.ts` — `ActionDispatcher.processJob`, the worker entry point.

JavaScript exceptions are modelled with `Except`; thrown values are `Value`s
(`Value.verr` models an `Error` object, `EngineErr.delayedError` models
BullMQ's `DelayedError`).  `Date.now()` is modelled by a fixed `now` field of
the `World` (time never needs to advance for these claims).
-/

/-- JSON-like runtime values.  `vnull` is JavaScript `null`; absent object
keys / `undefined` are modelled by `Option.none` at use sites.  `verr msg`
models a JavaScript `Error` object carrying a message. -/
inductive Value where
  | vnull : Value
  | vbool : Bool → Value
  | vnum  : Int → Value
  | vstr  : String → Value
  | varr  : List Value → Value
  | vobj  : List (String × Value) → Value
  | verr  : String → Value
deriving Repr

/-- Property lookup on a JS object (modelled as an ordered key/value list). -/
def getKey : List (String × Value) → String → Option Value
  | [], _ => none
  | (k, v) :: t, key => if key = k then some v else getKey t key

/-- Key/value list for an optional field: omitted when the value is absent. -/
def optField (k : String) (o : Option Value) : List (String × Value) :=
  match o with
  | none => []
  | some v => [(k, v)]

/-- All-or-nothing parse of a list (models zod parsing of arrays/records). -/
def parseList {α β : Type} (f : α → Option β) : List α → Option (List β)
  | [] => some []
  | a :: t =>
    match f a with
    | none => none
    | some b =>
      match parseList f t with
      | none => none
      | some bs => some (b :: bs)

/-- The step status enum of `StatusSchema` in Job.ts:
`z.enum(["pending", "active", "completed", "failed"])`. -/
def isStatusString (s : String) : Bool :=
  s == "pending" || s == "active" || s == "completed" || s == "failed"

/-- `StatusSchema.default("pending")` applied to a step state's `status`
field: absent means the default, a string must be in the enum. -/
def StatusSchema.parse (o : Option Value) : Option Value :=
  match o with
  | none => some (.vstr "pending")
  | some (.vstr s) => if isStatusString s then some (.vstr s) else none
  | some _ => none

/-- `StepStateSchema.parse`: `slug` string, `status` enum (default pending),
`attempts` number (default 0), `data`/`error`/`result` any, nullish.
Returns the normalized output object. -/
def StepStateSchema.parse (v : Value) : Option Value :=
  match v with
  | .vobj kvs =>
    match getKey kvs "slug" with
    | some (.vstr slug) =>
      match StatusSchema.parse (getKey kvs "status") with
      | some status =>
        match (match getKey kvs "attempts" with
               | none => some (Value.vnum 0)
               | some (.vnum n) => some (Value.vnum n)
               | some _ => none) with
        | some attempts =>
          some (.vobj ([("slug", .vstr slug), ("status", status), ("attempts", attempts)]
            ++ optField "data" (getKey kvs "data")
            ++ optField "error" (getKey kvs "error")
            ++ optField "result" (getKey kvs "result")))
        | none => none
      | none => none
    | _ => none
  | _ => none

/-- The attempt `type` enum of `AttemptSchema`. -/
def isAttemptType (s : String) : Bool :=
  s == "job" || s == "step"

/-- The attempt `status` enum of `AttemptSchema`. -/
def isAttemptStatus (s : String) : Bool :=
  s == "active" || s == "failed" || s == "completed"

/-- A nullish number field (`z.number().nullish()`): absent ok, null ok,
otherwise must be a number. -/
def parseNullishNum (o : Option Value) : Option (Option Value) :=
  match o with
  | none => some none
  | some .vnull => some (some .vnull)
  | some (.vnum n) => some (some (.vnum n))
  | some _ => none

/-- `AttemptSchema.parse`: `type` and `status` enums, `name` string, `start`
number, `end`/`duration` nullish numbers, `error` any nullish. -/
def AttemptSchema.parse (v : Value) : Option Value :=
  match v with
  | .vobj kvs =>
    match getKey kvs "type" with
    | some (.vstr ty) =>
      if isAttemptType ty then
        match getKey kvs "status" with
        | some (.vstr st) =>
          if isAttemptStatus st then
            match getKey kvs "name" with
            | some (.vstr nm) =>
              match getKey kvs "start" with
              | some (.vnum s) =>
                match parseNullishNum (getKey kvs "end") with
                | some endv =>
                  match parseNullishNum (getKey kvs "duration") with
                  | some dur =>
                    some (.vobj ([("type", .vstr ty), ("status", .vstr st),
                        ("name", .vstr nm), ("start", .vnum s)]
                      ++ optField "end" endv
                      ++ optField "duration" dur
                      ++ optField "error" (getKey kvs "error")))
                  | none => none
                | none => none
              | _ => none
            | _ => none
          else none
        | _ => none
      else none
    | _ => none
  | _ => none

/-- `ActiveJobSchema.parse`: `source` any, `__prepared` boolean (default
false), `__state` a record of step states (default `{}`), `__attempts` and
`__step_attempts` arrays of attempts (default `[]`). -/
def ActiveJobSchema.parse (v : Value) : Option Value :=
  match v with
  | .vobj kvs =>
    match (match getKey kvs "__prepared" with
           | none => some false
           | some (.vbool b) => some b
           | some _ => none) with
    | some prep =>
      match (match getKey kvs "__state" with
             | none => some []
             | some (.vobj l) =>
               parseList (fun (p : String × Value) =>
                 (StepStateSchema.parse p.2).map (fun w => (p.1, w))) l
             | some _ => none : Option (List (String × Value))) with
      | some stateL =>
        match (match getKey kvs "__attempts" with
               | none => some []
               | some (.varr l) => parseList AttemptSchema.parse l
               | some _ => none : Option (List Value)) with
        | some attL =>
          match (match getKey kvs "__step_attempts" with
                 | none => some []
                 | some (.varr l) => parseList AttemptSchema.parse l
                 | some _ => none : Option (List Value)) with
          | some stepAttL =>
            some (.vobj (optField "source" (getKey kvs "source")
              ++ [("__prepared", .vbool prep), ("__state", .vobj stateL),
                  ("__attempts", .varr attL), ("__step_attempts", .varr stepAttL)]))
          | none => none
        | none => none
      | none => none
    | none => none
  | _ => none

/-- Truthiness of the `__prepared` field of a parsed payload
(`if (parsedOriginal.__prepared)`). -/
def preparedFlag (w : Value) : Bool :=
  match w with
  | .vobj kvs =>
    match getKey kvs "__prepared" with
    | some (.vbool b) => b
    | _ => false
  | _ => false

/-- `ActiveJob.prepare` (Job.ts): parse the raw payload; if already prepared
return it, otherwise wrap it as `{source: original, __prepared: true}` and
parse that.  `none` models the zod `ValidationError` throw. -/
def ActiveJob.prepare (original : Value) : Option Value :=
  match ActiveJobSchema.parse original with
  | none => none
  | some parsed =>
    if preparedFlag parsed = true then some parsed
    else ActiveJobSchema.parse (.vobj [("source", original), ("__prepared", .vbool true)])

/-- The `status` field of a parsed step state object. -/
def stepStatusOf (w : Value) : Option Value :=
  match w with
  | .vobj kvs => getKey kvs "status"
  | _ => none

/-! ## Engine model (JobRunner.ts / Dispatcher.ts)

The live engine operates on the parsed payload.  On well-formed structured
data the zod re-validation inside `ActiveJob.updateData` is the identity, so
the engine is modelled directly over a structured `JobData` record, with the
raw-`Value` round trip covered by the schema layer above. -/

/-- `StepStateData` (parsed output of `StepStateSchema`). -/
structure StepState where
  slug : String
  status : String
  attempts : Int
  data : Option Value
  error : Option Value
  result : Option Value
deriving Repr

/-- Exceptions raised by engine code (as opposed to values thrown by user
handlers, which are plain `Value`s caught inside the step branch).
`thrownVal (.verr msg)` models `throw new Error(msg)`; `delayedError` models
BullMQ's `DelayedError`; `thrownResult` models the (dead) `throw result`
line of `JobRunner.#executeStep`. -/
inductive EngineErr where
  | thrownVal : Value → EngineErr
  | delayedError : EngineErr
  | thrownResult : EngineErr
deriving Repr

/-- `ExecuteResult` returned by `StepRunner.execute`.  The `sleep` thunk is
modelled by a Boolean marker; `JobRunner.sleep` invokes
`StepRunner.runSleep` when it is set, exactly as the closure would. -/
structure ExecResult where
  status : String
  result : Option Value
  state : StepState
  sleep : Bool := false
deriving Repr

/-- Payload attached to a buffered log entry (`data?: any`). -/
inductive LogPayload where
  | val : Value → LogPayload
  | caught : Except EngineErr ExecResult → LogPayload

/-- `LogEntry` of `ContextLogger`. -/
structure LogEntry where
  level : String
  message : String
  data : Option LogPayload

/-- In-flight `ContextAttempt.data` (field `end` is `endTime` here, since
`end` is reserved in Lean). -/
structure CtxAttempt where
  name : String
  type : String
  status : String
  start : Int
  endTime : Option Int
  error : Option Value

/-- Formatted attempt record (`AttemptData`, output of `AttemptSchema`). -/
structure AttemptRec where
  name : String
  type : String
  status : String
  start : Int
  endTime : Option Int
  duration : Option Int
  error : Option Value
deriving Repr

/-- `RunnerContext`: buffered logs, the job attempt, step attempts (in
creation order) and the registered steps. -/
structure Ctx where
  logs : List LogEntry
  jobAttempt : CtxAttempt
  stepAttempts : List CtxAttempt
  steps : List String

/-- Parsed `ActiveJobData`: the persisted job payload. -/
structure JobData where
  source : Option Value
  prepared : Bool
  state : List (String × StepState)
  attempts : List AttemptRec
  stepAttempts : List AttemptRec
deriving Repr

/-- Parsed `jobs.priority` configuration of `ActionDispatcherConfigSchema`. -/
structure PriorityCfg where
  enabled : Bool
  defaultValue : Int
  delayDefaultValue : Int
deriving Repr

/-- The slice of the parsed dispatcher configuration the engine reads. -/
structure DispatcherConfig where
  priority : Option PriorityCfg
deriving Repr

/-- Backend (BullMQ) operations the engine issues, in order. -/
inductive BOp where
  | updateData : JobData → BOp
  | changePriority : Int → BOp
  | moveToDelayed : Int → BOp
deriving Repr

/-- The job's backend-visible state: persisted payload, the ordered log of
backend operations, the current wall-clock instant (`Date.now()`), the
worker token and the dispatcher configuration. -/
structure World where
  data : JobData
  ops : List BOp
  now : Int
  token : String
  cfg : DispatcherConfig

/-- Combined mutable state of one worker invocation. -/
structure Rs where
  world : World
  ctx : Ctx

/-- JS object property access on the `__state` record. -/
def lookupStep : List (String × StepState) → String → Option StepState
  | [], _ => none
  | (k, v) :: t, key => if key = k then some v else lookupStep t key

/-- JS property assignment on the `__state` record: overwrite in place,
append if absent. -/
def setStep : List (String × StepState) → String → StepState → List (String × StepState)
  | [], key, st => [(key, st)]
  | (k, v) :: t, key, st => if key = k then (key, st) :: t else (k, v) :: setStep t key st

/-- `StepRunner.getState`: `data.__state[this.id] || null`. -/
def StepRunner.getState (d : JobData) (id : String) : Option StepState :=
  lookupStep d.state id

/-- `ActiveJob.getDelayedPriority`:
`this.dispatcher.config.jobs?.priority?.delayDefaultValue ?? 1`. -/
def ActiveJob.getDelayedPriority (cfg : DispatcherConfig) : Int :=
  match cfg.priority with
  | some p => p.delayDefaultValue
  | none => 1

/-- Append a backend operation. -/
def appendOp (rs : Rs) (o : BOp) : Rs :=
  {rs with world := {rs.world with ops := rs.world.ops ++ [o]}}

/-- `StepRunner.setState`: write the step state into the payload and persist
the whole payload through `ActiveJob.updateData` → `bullJob.updateData`. -/
def StepRunner.setState (rs : Rs) (id : String) (st : StepState) : Rs :=
  let d2 : JobData := {rs.world.data with state := setStep rs.world.data.state id st}
  {rs with world := {rs.world with data := d2, ops := rs.world.ops ++ [.updateData d2]}}

/-- `ContextLogger.log`: push the entry into the in-memory buffer. -/
def ContextLogger.log (rs : Rs) (level message : String) (d : Option LogPayload) : Rs :=
  {rs with ctx := {rs.ctx with logs := rs.ctx.logs ++ [{level := level, message := message, data := d}]}}

/-- `RunnerContext._registerStep`. -/
def RunnerContext.registerStep (rs : Rs) (id : String) : Rs :=
  {rs with ctx := {rs.ctx with steps := rs.ctx.steps ++ [id]}}

/-- `RunnerContext._stepAttempt`: create a fresh active step attempt. -/
def RunnerContext.stepAttempt (rs : Rs) (slug : String) : Rs :=
  {rs with ctx := {rs.ctx with stepAttempts := rs.ctx.stepAttempts ++
    [{name := "step." ++ slug, type := "step", status := "active",
      start := rs.world.now, endTime := none, error := none}]}}

/-- Update the `i`-th element of a list in place. -/
def modifyAt {α : Type} (l : List α) (i : Nat) (f : α → α) : List α :=
  match l, i with
  | [], _ => []
  | a :: t, 0 => f a :: t
  | a :: t, Nat.succ j => a :: modifyAt t j f

/-- `ContextAttempt.complete` on the `i`-th step attempt of the context. -/
def ContextAttempt.completeAt (rs : Rs) (i : Nat) : Rs :=
  let f : CtxAttempt → CtxAttempt :=
    fun a => {a with status := "completed", endTime := some rs.world.now}
  {rs with ctx := {rs.ctx with stepAttempts := modifyAt rs.ctx.stepAttempts i f}}

/-- `ContextAttempt.fail` on the `i`-th step attempt of the context (stores
the error, does not stamp `end`). -/
def ContextAttempt.failAt (rs : Rs) (i : Nat) (e : Value) : Rs :=
  let f : CtxAttempt → CtxAttempt :=
    fun a => {a with status := "failed", error := some e}
  {rs with ctx := {rs.ctx with stepAttempts := modifyAt rs.ctx.stepAttempts i f}}

/-- `ContextAttempt.format`: stamp `end` with the current time if missing and
derive `duration = end - start`. -/
def ContextAttempt.format (now : Int) (a : CtxAttempt) : AttemptRec :=
  let e := a.endTime.getD now
  {name := a.name, type := a.type, status := a.status, start := a.start,
   endTime := some e, duration := some (e - a.start), error := a.error}

/-- `RunnerContext._formatAttempts`. -/
def RunnerContext.formatAttempts (ctx : Ctx) (now : Int) : List AttemptRec :=
  ctx.stepAttempts.map (ContextAttempt.format now)

/-- A fresh `RunnerContext` (constructor): empty buffers plus the active job
attempt. -/
def RunnerContext.new (now : Int) : Ctx :=
  let ja : CtxAttempt :=
    {name := "job", type := "job", status := "active",
     start := now, endTime := none, error := none}
  {logs := [], jobAttempt := ja, stepAttempts := [], steps := []}

/-- `StepRunner.canRun`: `this.runner.purpose === "execute"`. -/
def StepRunner.canRun (purpose : String) : Bool :=
  purpose == "execute"

/-- `RunnerStepOptions` (the slice the modelled step types use).  A user
handler is modelled by its one-shot outcome: a returned `Value` or a thrown
`Value`. -/
structure StepOpts where
  id : String
  type : String
  handler : Option (Except Value Value) := none
  duration : Option Int := none

/-- `StepRunner.#runStep`: guard, then invoke the user handler. -/
def StepRunner.runStep (opts : StepOpts) : Except Value Value :=
  match opts.handler with
  | none => .error (.verr "Missing handler or type for #runStep()")
  | some h =>
    if opts.type = "step" then h
    else .error (.verr "Missing handler or type for #runStep()")

/-- The step state created on first touch:
`{slug, status: "pending", attempts: 0, data: null, error: null}`. -/
def pendingState (id : String) : StepState :=
  {slug := id, status := "pending", attempts := 0, data := some .vnull,
   error := some .vnull, result := none}

/-- The part of `StepRunner.execute` after the pre-execution checks: create
the step attempt, re-read the state, then branch on the step type. -/
def StepRunner.executeMain (opts : StepOpts) (rs : Rs) : Rs × Except EngineErr ExecResult :=
  let rs1 := RunnerContext.stepAttempt rs opts.id
  let aIdx := rs1.ctx.stepAttempts.length - 1
  match StepRunner.getState rs1.world.data opts.id with
  | none => (rs1, .error (.thrownVal (.verr ("Step " ++ opts.id ++ " has no state"))))
  | some state =>
    if opts.type = "sleep" then
      -- state.status = "completed"; state.result = null; setState; changePriority
      let st2 : StepState := {state with status := "completed", result := some .vnull}
      let rs2 := StepRunner.setState rs1 opts.id st2
      let rs3 := appendOp rs2 (.changePriority (ActiveJob.getDelayedPriority rs2.world.cfg))
      (rs3, .ok {status := "completed", result := some .vnull, state := st2, sleep := true})
    else if opts.type = "step" then
      match StepRunner.runStep opts with
      | .ok v =>
        -- attempt.complete(); state.status = "completed"; log; state.result = result; setState
        let rs2 := ContextAttempt.completeAt rs1 aIdx
        let rs3 := ContextLogger.log rs2 "debug" ("Step " ++ opts.id ++ " finished") none
        let st3 : StepState := {state with status := "completed", result := some v}
        let rs4 := StepRunner.setState rs3 opts.id st3
        (rs4, .ok {status := "completed", result := some v, state := st3, sleep := false})
      | .error e =>
        -- log; state.status = "failed"; state.error = e; attempt.fail(e);
        -- state.result = null; setState
        let rs2 := ContextLogger.log rs1 "debug"
          ("Step " ++ opts.id ++ " has thrown an error.") (some (.val e))
        let rs3 := ContextAttempt.failAt rs2 aIdx e
        let st3 : StepState := {state with status := "failed", error := some e, result := some .vnull}
        let rs4 := StepRunner.setState rs3 opts.id st3
        (rs4, .ok {status := "failed", result := some .vnull, state := st3, sleep := false})
    else (rs1, .error (.thrownVal (.verr ("Unknown step type " ++ opts.type))))

/-- `StepRunner.execute`: registration, runnable/completed checks,
first-touch state creation, then `executeMain`. -/
def StepRunner.execute (purpose : String) (opts : StepOpts) (rs : Rs) : Rs × Except EngineErr ExecResult :=
  let runnable := StepRunner.canRun purpose
  let firstState := StepRunner.getState rs.world.data opts.id
  let rs1 := RunnerContext.registerStep rs opts.id
  if runnable = false then
    let rs2 := ContextLogger.log rs1 "info" ("Step " ++ opts.id ++ " is not runnable") none
    (rs2, .error (.thrownVal (.verr ("Step " ++ opts.id ++ " is not runnable"))))
  else
    match firstState with
    | some st =>
      if st.status = "completed" then
        let rs2 := ContextLogger.log rs1 "info" ("Step " ++ opts.id ++ " is already completed") none
        (rs2, .ok {status := "no-run", result := st.result, state := st, sleep := false})
      else StepRunner.executeMain opts rs1
    | none =>
      let rs2 := ContextLogger.log rs1 "info"
        ("First time running step " ++ opts.id ++ ", saving step to state") none
      let rs3 := StepRunner.setState rs2 opts.id (pendingState opts.id)
      StepRunner.executeMain opts rs3

/-- `PrepareStepResult` (without the `step` object, whose options are passed
explicitly). -/
structure PrepareStepResult where
  isCanRun : Bool
  isCompleted : Bool
  isExecutable : Bool
  state : Option StepState

/-- `JobRunner.#prepareStep`. -/
def JobRunner.prepareStep (purpose : String) (opts : StepOpts) (rs : Rs) : PrepareStepResult :=
  let isCanRun := StepRunner.canRun purpose
  let st := StepRunner.getState rs.world.data opts.id
  let isCompleted : Bool :=
    match st with
    | some s => decide (s.status = "completed")
    | none => false
  {isCanRun := isCanRun, isCompleted := isCompleted,
   isExecutable := isCanRun && !isCompleted, state := st}

/-- `ExecuteStepResult`.  `executedResult` holds whatever
`execute().catch(e => e)` produced: either the returned `ExecuteResult` or
the caught exception object. -/
structure ExecuteStepResult where
  success : Bool
  ran : Bool
  prepared : PrepareStepResult
  cachedResult : Option Value := none
  executedResult : Option (Except EngineErr ExecResult) := none

/-- Property access `result.status` on the value produced by
`execute().catch(e => e)`: an exception object has no `status`. -/
def caughtStatus (c : Except EngineErr ExecResult) : Option String :=
  match c with
  | .ok r => some r.status
  | .error _ => none

/-- JS falsiness of the caught value: both an `ExecuteResult` object and an
exception object are truthy. -/
def caughtIsFalsy (_c : Except EngineErr ExecResult) : Bool := false

/-- Property access `result.error instanceof Error`: `ExecuteResult` never
carries a top-level `error` field and exception objects have none either. -/
def caughtErrorIsError (_c : Except EngineErr ExecResult) : Bool := false

/-- Property access `executedResult?.result`. -/
def caughtResultField (c : Except EngineErr ExecResult) : Option Value :=
  match c with
  | .ok r => r.result
  | .error _ => none

/-- `x ?? null`. -/
def jsOrNull (o : Option Value) : Value := o.getD .vnull

/-- `a ?? b` on possibly-nullish values. -/
def jsCoalesce (a b : Option Value) : Option Value :=
  match a with
  | none => b
  | some .vnull => b
  | some v => some v

/-- `JobRunner.#executeStep`: skip/cached decision, then
`execute().catch(e => e)` and the post-execution checks. -/
def JobRunner.executeStep (purpose : String) (opts : StepOpts) (rs : Rs) : Rs × Except EngineErr ExecuteStepResult :=
  let prepared := JobRunner.prepareStep purpose opts rs
  if prepared.isExecutable = false then
    match prepared.state with
    | some st =>
      if st.status = "completed" then
        let rs2 := ContextLogger.log rs "info" ("Step " ++ opts.id ++ " is already completed") none
        (rs2, .ok {success := true, ran := false, prepared := prepared,
                   cachedResult := some (jsOrNull st.result)})
      else (rs, .error (.thrownVal (.verr ("Step " ++ opts.id ++ " is not runnable"))))
    | none => (rs, .error (.thrownVal (.verr ("Step " ++ opts.id ++ " is not runnable"))))
  else
    let r := StepRunner.execute purpose opts rs
    let rs1 := r.1
    let caught := r.2
    if caughtIsFalsy caught = true ∨ caughtStatus caught = some "failed" then
      let rs2 := ContextLogger.log rs1 "debug"
        ("Step " ++ opts.id ++ " has thrown an error.") (some (.caught caught))
      (rs2, .error (.thrownVal (.verr ("Step " ++ opts.id ++ " failed."))))
    else if ¬(caughtStatus caught = some "completed") ∧ caughtErrorIsError caught = true then
      (rs1, .error .thrownResult)
    else
      (rs1, .ok {success := true, ran := true, prepared := prepared,
                 executedResult := some caught})

/-- `JobRunner.step`: the durable-step primitive. -/
def JobRunner.step (purpose : String) (id : String) (handler : Except Value Value) (rs : Rs) : Rs × Except EngineErr (Option Value) :=
  match JobRunner.executeStep purpose {id := id, type := "step", handler := some handler} rs with
  | (rs1, .error e) => (rs1, .error e)
  | (rs1, .ok ex) =>
    if ex.success = false then
      -- dead branch: #executeStep never returns success = false
      (rs1, .error (.thrownVal (.verr ("Step " ++ id ++ " failed. Error: undefined"))))
    else
      (rs1, .ok (jsCoalesce ex.cachedResult (ex.executedResult.bind caughtResultField)))

/-- `StepRunner.#runSleep` (the `sleep` thunk): guard on type and on a falsy
duration, then `moveToDelayed` and `throw new DelayedError()`. -/
def StepRunner.runSleep (opts : StepOpts) (rs : Rs) : Rs × Except EngineErr Unit :=
  match opts.duration with
  | none => (rs, .error (.thrownVal (.verr "Missing duration or type for #runSleep()")))
  | some d =>
    if ¬(opts.type = "sleep") ∨ d = 0 then
      (rs, .error (.thrownVal (.verr "Missing duration or type for #runSleep()")))
    else
      let ts := rs.world.now + d
      let rs1 := ContextLogger.log rs "info"
        ("Sleeping for " ++ toString d ++ "ms. Token: " ++ rs.world.token) none
      let rs2 := appendOp rs1 (.moveToDelayed ts)
      (rs2, .error .delayedError)

/-- `result.sleep` presence check (`!execution.executedResult?.sleep`). -/
def execHasSleep (ex : ExecuteStepResult) : Bool :=
  match ex.executedResult with
  | some (.ok r) => r.sleep
  | _ => false

/-- `JobRunner.sleep`: the sleep primitive. -/
def JobRunner.sleep (purpose : String) (id : String) (duration : Int) (rs : Rs) : Rs × Except EngineErr Unit :=
  match JobRunner.executeStep purpose {id := id, type := "sleep", duration := some duration} rs with
  | (rs1, .error e) => (rs1, .error e)
  | (rs1, .ok ex) =>
    if ex.success = true ∧ ex.ran = true then
      if execHasSleep ex = false then
        (rs1, .error (.thrownVal (.verr ("Expected step " ++ id ++ " to have a sleep function."))))
      else
        StepRunner.runSleep {id := id, type := "sleep", duration := some duration} rs1
    else if ex.success = true ∧ ex.ran = false then
      (rs1, .ok ())
    else
      (rs1, .error (.thrownVal (.verr ("Sleep step " ++ id ++ " failed."))))

/-- The finalization block of `ActionDispatcher.processJob`: append the
formatted step attempts and the formatted job attempt to the payload. -/
def ActionDispatcher.finalizeData (d : JobData) (ctx : Ctx) (now : Int) : JobData :=
  {d with stepAttempts := d.stepAttempts ++ RunnerContext.formatAttempts ctx now,
          attempts := d.attempts ++ [ContextAttempt.format now ctx.jobAttempt]}

/-- `ActionDispatcher.processJob`: construct a fresh context, await the user
handler, and — only when the handler returned normally — append the attempt
records and persist the payload.  A thrown error (including `DelayedError`)
propagates before the finalization block is reached. -/
def ActionDispatcher.processJob (handler : Rs → Rs × Except EngineErr (Option Value)) (w : World) : Rs × Except EngineErr (Option Value) :=
  let rs : Rs := {world := w, ctx := RunnerContext.new w.now}
  match handler rs with
  | (rs1, .error e) => (rs1, .error e)
  | (rs1, .ok res) =>
    let d2 := ActionDispatcher.finalizeData rs1.world.data rs1.ctx rs1.world.now
    let rs2 : Rs :=
      {rs1 with world := {rs1.world with data := d2, ops := rs1.world.ops ++ [.updateData d2]}}
    (rs2, .ok res)

/-- `jobs.priority` parse of `ActionDispatcherConfigSchema`: `enabled`
required boolean, `defaultValue` default 2, `delayDefaultValue` default 1. -/
def ActionDispatcherConfigSchema.parsePriority (v : Value) : Option PriorityCfg :=
  match v with
  | .vobj kvs =>
    match getKey kvs "enabled" with
    | some (.vbool b) =>
      match (match getKey kvs "defaultValue" with
             | none => some (2 : Int)
             | some (.vnum n) => some n
             | some _ => none : Option Int) with
      | some dv =>
        match (match getKey kvs "delayDefaultValue" with
               | none => some (1 : Int)
               | some (.vnum n) => some n
               | some _ => none : Option Int) with
        | some ddv => some {enabled := b, defaultValue := dv, delayDefaultValue := ddv}
        | none => none
      | none => none
    | _ => none
  | _ => none

/-! ## Scenario fixtures -/

/-- A dispatcher configuration with no `jobs.priority` section. -/
def cfg0 : DispatcherConfig := {priority := none}

/-- A freshly prepared payload with no steps or attempts. -/
def jd0 : JobData :=
  {source := some (.vstr "input"), prepared := true, state := [], attempts := [], stepAttempts := []}

/-- Initial backend state of a brand-new job. -/
def w0 : World := {data := jd0, ops := [], now := 1000, token := "tok", cfg := cfg0}

/-- Workflow with a single step whose handler throws `"boom"`. -/
def wfFail : Rs → Rs × Except EngineErr (Option Value) :=
  fun rs => JobRunner.step "execute" "s1" (.error (.vstr "boom")) rs

/-- Workflow `sleep("s1", 1000)` followed by a step `"s2"`. -/
def wfSleepStep : Rs → Rs × Except EngineErr (Option Value) :=
  fun rs =>
    match JobRunner.sleep "execute" "s1" 1000 rs with
    | (rs1, .error e) => (rs1, .error e)
    | (rs1, .ok _) => JobRunner.step "execute" "s2" (.ok (.vstr "r2")) rs1

/-- Workflow with steps A, B, C whose handlers are supplied per invocation. -/
def wfABC (hA hB hC : Except Value Value) : Rs → Rs × Except EngineErr (Option Value) :=
  fun rs =>
    match JobRunner.step "execute" "A" hA rs with
    | (rs1, .error e) => (rs1, .error e)
    | (rs1, .ok _) =>
      match JobRunner.step "execute" "B" hB rs1 with
      | (rs2, .error e) => (rs2, .error e)
      | (rs2, .ok _) => JobRunner.step "execute" "C" hC rs2

/-- Workflow that writes one log entry through the context logger and then
runs one successful step. -/
def wfLog : Rs → Rs × Except EngineErr (Option Value) :=
  fun rs =>
    let rs0 := ContextLogger.log rs "info" "hello" none
    JobRunner.step "execute" "s1" (.ok (.vstr "r")) rs0

/-- The same workflow without the log call. -/
def wfNoLog : Rs → Rs × Except EngineErr (Option Value) :=
  fun rs => JobRunner.step "execute" "s1" (.ok (.vstr "r")) rs

/-- Number of `moveToDelayed` requests issued so far. -/
def countMoveDelayed (ops : List BOp) : Nat :=
  ops.countP (fun o => match o with | .moveToDelayed _ => true | _ => false)

/-- First invocation of the sleep workflow. -/
def sleepInv1 : Rs × Except EngineErr (Option Value) :=
  ActionDispatcher.processJob wfSleepStep w0

/-- Second invocation of the sleep workflow (backend redelivery). -/
def sleepInv2 : Rs × Except EngineErr (Option Value) :=
  ActionDispatcher.processJob wfSleepStep sleepInv1.1.world

/-- First invocation of the A/B/C workflow: B's handler throws. -/
def abcInv1 : Rs × Except EngineErr (Option Value) :=
  ActionDispatcher.processJob (wfABC (.ok (.vstr "ra")) (.error (.vstr "bad")) (.ok (.vstr "rc"))) w0

/-- Second invocation of the A/B/C workflow: all handlers succeed. -/
def abcInv2 : Rs × Except EngineErr (Option Value) :=
  ActionDispatcher.processJob (wfABC (.ok (.vstr "ra")) (.ok (.vstr "rb")) (.ok (.vstr "rc"))) abcInv1.1.world

/-- A completed step state with a cached result, and a state containing it
(fixture for the memoization witness). -/
def stCompleted : StepState :=
  {slug := "s1", status := "completed", attempts := 3, data := none, error := none,
   result := some (.vstr "X")}

/-- An `Rs` whose payload holds the completed step `"s1"`. -/
def rsMemo : Rs :=
  {world := {data := {jd0 with state := [("s1", stCompleted)]}, ops := [], now := 1000,
             token := "tok", cfg := cfg0},
   ctx := RunnerContext.new 1000}

/-- An `Rs` with an empty step record. -/
def rsFresh : Rs := {world := w0, ctx := RunnerContext.new 1000}

/-! ## Helper lemmas -/

theorem lookupStep_setStep_self (l : List (String × StepState)) (k : String) (st : StepState) :
    lookupStep (setStep l k st) k = some st := by
  induction l with
  | nil => simp [setStep, lookupStep]
  | cons p t ih =>
    by_cases hk : k = p.1
    · simp [setStep, hk, lookupStep]
    · simp [setStep, hk, lookupStep, ih]

theorem getKey_append (l1 l2 : List (String × Value)) (k : String) :
    getKey (l1 ++ l2) k = match getKey l1 k with
      | some v => some v
      | none => getKey l2 k := by
  induction l1 with
  | nil => simp [getKey]
  | cons p t ih =>
    by_cases hk : k = p.1
    · simp [getKey, hk]
    · simp [getKey, hk, ih]

theorem statusParse_form (o : Option Value) (w : Value)
    (h : StatusSchema.parse o = some w) :
    ∃ s, w = .vstr s ∧ isStatusString s = true := by
  match o with
  | none =>
    simp [StatusSchema.parse] at h
    exact ⟨"pending", h.symm, by decide⟩
  | some (.vstr s) =>
    simp [StatusSchema.parse] at h
    by_cases hs : isStatusString s = true
    · simp [hs] at h
      exact ⟨s, h.symm, hs⟩
    · simp [Bool.not_eq_true] at hs
      simp [hs] at h
  | some .vnull => simp [StatusSchema.parse] at h
  | some (.vbool b) => simp [StatusSchema.parse] at h
  | some (.vnum n) => simp [StatusSchema.parse] at h
  | some (.varr l) => simp [StatusSchema.parse] at h
  | some (.vobj l) => simp [StatusSchema.parse] at h
  | some (.verr m) => simp [StatusSchema.parse] at h

theorem stepStateParse_idem (v w : Value)
    (h : StepStateSchema.parse v = some w) :
    StepStateSchema.parse w = some w ∧
    (∃ s, stepStatusOf w = some (.vstr s) ∧ isStatusString s = true) := by
  cases v with
  | vobj kvs =>
    simp only [StepStateSchema.parse] at h
    cases hslug : getKey kvs "slug" with
    | none => simp only [hslug] at h; simp at h
    | some sv =>
      simp only [hslug] at h
      cases sv with
      | vstr slug =>
        cases hstatus : StatusSchema.parse (getKey kvs "status") with
        | none => simp only [hstatus] at h; simp at h
        | some status =>
          simp only [hstatus] at h
          obtain ⟨s, hws, hss⟩ := statusParse_form _ _ hstatus
          subst hws
          have hfin : ∀ (att : Value),
              w = .vobj ([("slug", .vstr slug), ("status", .vstr s), ("attempts", att)]
                ++ optField "data" (getKey kvs "data")
                ++ optField "error" (getKey kvs "error")
                ++ optField "result" (getKey kvs "result")) →
              (∃ n, att = Value.vnum n) →
              StepStateSchema.parse w = some w ∧
              (∃ s2, stepStatusOf w = some (.vstr s2) ∧ isStatusString s2 = true) := by
            intro att hw hn
            obtain ⟨n, hn⟩ := hn
            subst hn
            subst hw
            refine ⟨?_, ?_⟩
            · cases hdata : getKey kvs "data" <;>
              cases herr : getKey kvs "error" <;>
              cases hres : getKey kvs "result" <;>
                simp [StepStateSchema.parse, StatusSchema.parse, getKey_append, getKey,
                      optField, hdata, herr, hres, hss]
            · cases hdata : getKey kvs "data" <;>
              cases herr : getKey kvs "error" <;>
              cases hres : getKey kvs "result" <;>
                simp [stepStatusOf, getKey_append, getKey, optField, hdata, herr, hres, hss]
          cases hatt : getKey kvs "attempts" with
          | none =>
            simp only [hatt, Option.some_inj] at h
            exact hfin (Value.vnum 0) h.symm ⟨0, rfl⟩
          | some av =>
            cases av with
            | vnum n =>
              simp only [hatt, Option.some_inj] at h
              exact hfin (Value.vnum n) h.symm ⟨n, rfl⟩
            | vnull => simp only [hatt] at h; simp at h
            | vbool b => simp only [hatt] at h; simp at h
            | vstr s2 => simp only [hatt] at h; simp at h
            | varr l => simp only [hatt] at h; simp at h
            | vobj l => simp only [hatt] at h; simp at h
            | verr m => simp only [hatt] at h; simp at h
      | vnull => simp at h
      | vbool b => simp at h
      | vnum n => simp at h
      | varr l => simp at h
      | vobj l => simp at h
      | verr m => simp at h
  | vnull => simp [StepStateSchema.parse] at h
  | vbool b => simp [StepStateSchema.parse] at h
  | vnum n => simp [StepStateSchema.parse] at h
  | vstr s => simp [StepStateSchema.parse] at h
  | varr l => simp [StepStateSchema.parse] at h
  | verr m => simp [StepStateSchema.parse] at h

theorem parseNullishNum_form (o : Option Value) (e : Option Value)
    (h : parseNullishNum o = some e) :
    e = none ∨ e = some .vnull ∨ ∃ n, e = some (.vnum n) := by
  cases o with
  | none => simp [parseNullishNum] at h; simp [h.symm]
  | some v =>
    cases v with
    | vnull => simp [parseNullishNum] at h; simp [h.symm]
    | vnum n => simp [parseNullishNum] at h; right; right; exact ⟨n, h.symm⟩
    | vbool b => simp [parseNullishNum] at h
    | vstr s => simp [parseNullishNum] at h
    | varr l => simp [parseNullishNum] at h
    | vobj l => simp [parseNullishNum] at h
    | verr m => simp [parseNullishNum] at h

theorem attemptParse_idem (v w : Value)
    (h : AttemptSchema.parse v = some w) :
    AttemptSchema.parse w = some w := by
  cases v with
  | vobj kvs =>
    simp only [AttemptSchema.parse] at h
    cases hty : getKey kvs "type" with
    | none => simp only [hty] at h; simp at h
    | some tv =>
      simp only [hty] at h
      cases tv with
      | vstr ty =>
        by_cases hty2 : isAttemptType ty = true
        case neg => simp only [Bool.not_eq_true] at hty2; simp only [hty2] at h; simp at h
        case pos =>
        simp only [hty2, if_true] at h
        cases hst : getKey kvs "status" with
        | none => simp only [hst] at h; simp at h
        | some stv =>
          simp only [hst] at h
          cases stv with
          | vstr st =>
            by_cases hst2 : isAttemptStatus st = true
            case neg => simp only [Bool.not_eq_true] at hst2; simp only [hst2] at h; simp at h
            case pos =>
            simp only [hst2, if_true] at h
            cases hnm : getKey kvs "name" with
            | none => simp only [hnm] at h; simp at h
            | some nv =>
              simp only [hnm] at h
              cases nv with
              | vstr nm =>
                cases hsrt : getKey kvs "start" with
                | none => simp only [hsrt] at h; simp at h
                | some sv =>
                  simp only [hsrt] at h
                  cases sv with
                  | vnum srt =>
                    cases hend : parseNullishNum (getKey kvs "end") with
                    | none => simp only [hend] at h; simp at h
                    | some endv =>
                      simp only [hend] at h
                      cases hdur : parseNullishNum (getKey kvs "duration") with
                      | none => simp only [hdur] at h; simp at h
                      | some dur =>
                        simp only [hdur, Option.some_inj] at h
                        subst h
                        rcases parseNullishNum_form _ _ hend with he | he | ⟨n1, he⟩ <;>
                        rcases parseNullishNum_form _ _ hdur with hd | hd | ⟨n2, hd⟩ <;>
                        subst he <;> subst hd <;>
                        cases herr : getKey kvs "error" <;>
                          simp [AttemptSchema.parse, parseNullishNum, getKey_append, getKey,
                                optField, herr, hty2, hst2]
                  | vnull => simp only [hsrt] at h; simp at h
                  | vbool b => simp only [hsrt] at h; simp at h
                  | vstr s => simp only [hsrt] at h; simp at h
                  | varr l => simp only [hsrt] at h; simp at h
                  | vobj l => simp only [hsrt] at h; simp at h
                  | verr m => simp only [hsrt] at h; simp at h
              | vnull => simp at h
              | vbool b => simp at h
              | vnum n => simp at h
              | varr l => simp at h
              | vobj l => simp at h
              | verr m => simp at h
          | vnull => simp at h
          | vbool b => simp at h
          | vnum n => simp at h
          | varr l => simp at h
          | vobj l => simp at h
          | verr m => simp at h
      | vnull => simp at h
      | vbool b => simp at h
      | vnum n => simp at h
      | varr l => simp at h
      | vobj l => simp at h
      | verr m => simp at h
  | vnull => simp [AttemptSchema.parse] at h
  | vbool b => simp [AttemptSchema.parse] at h
  | vnum n => simp [AttemptSchema.parse] at h
  | vstr s => simp [AttemptSchema.parse] at h
  | varr l => simp [AttemptSchema.parse] at h
  | verr m => simp [AttemptSchema.parse] at h

theorem parseList_mem_ex {α β : Type} (f : α → Option β) (l : List α) (out : List β)
    (h : parseList f l = some out) :
    ∀ b ∈ out, ∃ a ∈ l, f a = some b := by
  induction l generalizing out with
  | nil =>
    simp [parseList] at h
    subst h
    simp
  | cons a t ih =>
    simp only [parseList] at h
    cases hfa : f a with
    | none => simp only [hfa] at h; simp at h
    | some b0 =>
      simp only [hfa] at h
      cases hrest : parseList f t with
      | none => simp only [hrest] at h; simp at h
      | some bs =>
        simp only [hrest, Option.some_inj] at h
        subst h
        intro b hb
        rcases List.mem_cons.mp hb with hb | hb
        · exact ⟨a, List.mem_cons_self a t, hb ▸ hfa⟩
        · obtain ⟨a2, ha2, hfa2⟩ := ih bs hrest b hb
          exact ⟨a2, List.mem_cons_of_mem a ha2, hfa2⟩

theorem parseList_self {α : Type} (f : α → Option α) (out : List α)
    (h : ∀ b ∈ out, f b = some b) :
    parseList f out = some out := by
  induction out with
  | nil => simp [parseList]
  | cons a t ih =>
    have ha := h a (List.mem_cons_self a t)
    have ht := ih (fun b hb => h b (List.mem_cons_of_mem a hb))
    simp [parseList, ha, ht]

theorem stateMatch_elem (kvs : List (String × Value)) (stateL : List (String × Value))
    (h : (match getKey kvs "__state" with
          | none => some []
          | some (.vobj l) =>
            parseList (fun (p : String × Value) =>
              (StepStateSchema.parse p.2).map (fun w => (p.1, w))) l
          | some _ => none : Option (List (String × Value))) = some stateL) :
    ∀ b ∈ stateL, StepStateSchema.parse b.2 = some b.2 := by
  cases hk : getKey kvs "__state" with
  | none =>
    simp only [hk, Option.some_inj] at h
    subst h
    simp
  | some sv =>
    simp only [hk] at h
    cases sv with
    | vobj l =>
      intro b hb
      obtain ⟨a, _, hga⟩ := parseList_mem_ex _ l stateL h b hb
      cases hpa : StepStateSchema.parse a.2 with
      | none => simp [hpa] at hga
      | some w2 =>
        have hb2 : (a.1, w2) = b := by simpa [hpa] using hga
        rw [← hb2]
        exact (stepStateParse_idem _ _ hpa).1
    | vnull => simp at h
    | vbool b => simp at h
    | vnum n => simp at h
    | vstr s => simp at h
    | varr l2 => simp at h
    | verr m => simp at h

theorem attemptMatch_elem (kvs : List (String × Value)) (key : String) (attL : List Value)
    (h : (match getKey kvs key with
          | none => some []
          | some (.varr l) => parseList AttemptSchema.parse l
          | some _ => none : Option (List Value)) = some attL) :
    ∀ b ∈ attL, AttemptSchema.parse b = some b := by
  cases hk : getKey kvs key with
  | none =>
    simp only [hk, Option.some_inj] at h
    subst h
    simp
  | some sv =>
    simp only [hk] at h
    cases sv with
    | varr l =>
      intro b hb
      obtain ⟨a, _, hga⟩ := parseList_mem_ex _ l attL h b hb
      exact attemptParse_idem _ _ hga
    | vnull => simp at h
    | vbool b => simp at h
    | vnum n => simp at h
    | vstr s => simp at h
    | vobj l2 => simp at h
    | verr m => simp at h

theorem activeJobParse_idem (v w : Value)
    (h : ActiveJobSchema.parse v = some w) :
    ActiveJobSchema.parse w = some w ∧ preparedFlag w = preparedFlag v := by
  cases v with
  | vobj kvs =>
    simp only [ActiveJobSchema.parse] at h
    cases hp : (match getKey kvs "__prepared" with
                | none => some false
                | some (.vbool b) => some b
                | some _ => none : Option Bool) with
    | none => simp only [hp] at h; simp at h
    | some prep =>
      simp only [hp] at h
      cases hstl : (match getKey kvs "__state" with
                    | none => some []
                    | some (.vobj l) =>
                      parseList (fun (p : String × Value) =>
                        (StepStateSchema.parse p.2).map (fun w => (p.1, w))) l
                    | some _ => none : Option (List (String × Value))) with
      | none => simp only [hstl] at h; simp at h
      | some stateL =>
        simp only [hstl] at h
        cases hatl : (match getKey kvs "__attempts" with
                      | none => some []
                      | some (.varr l) => parseList AttemptSchema.parse l
                      | some _ => none : Option (List Value)) with
        | none => simp only [hatl] at h; simp at h
        | some attL =>
          simp only [hatl] at h
          cases hsal : (match getKey kvs "__step_attempts" with
                        | none => some []
                        | some (.varr l) => parseList AttemptSchema.parse l
                        | some _ => none : Option (List Value)) with
          | none => simp only [hsal] at h; simp at h
          | some stepAttL =>
            simp only [hsal, Option.some_inj] at h
            subst h
            have hstate2 : parseList (fun (p : String × Value) =>
                (StepStateSchema.parse p.2).map (fun w2 => (p.1, w2))) stateL = some stateL := by
              apply parseList_self
              intro b hb
              simp [stateMatch_elem kvs stateL hstl b hb]
            have hatt2 : parseList AttemptSchema.parse attL = some attL := by
              apply parseList_self
              intro b hb
              exact attemptMatch_elem kvs "__attempts" attL hatl b hb
            have hsal2 : parseList AttemptSchema.parse stepAttL = some stepAttL := by
              apply parseList_self
              intro b hb
              exact attemptMatch_elem kvs "__step_attempts" stepAttL hsal b hb
            have hpflag : preparedFlag (Value.vobj kvs) = prep := by
              simp only [preparedFlag]
              cases hk : getKey kvs "__prepared" with
              | none => simp only [hk] at hp; simp at hp; simp [hp]
              | some pv =>
                simp only [hk] at hp
                cases pv with
                | vbool b => simp at hp; simp [hp]
                | vnull => simp at hp
                | vnum n => simp at hp
                | vstr s => simp at hp
                | varr l => simp at hp
                | vobj l => simp at hp
                | verr m => simp at hp
            simp only [preparedFlag] at hpflag
            cases hsrc : getKey kvs "source" <;>
              simp [ActiveJobSchema.parse, preparedFlag, getKey_append, getKey, optField,
                    hsrc, hstate2, hatt2, hsal2, hpflag]
  | vnull => simp [ActiveJobSchema.parse] at h
  | vbool b => simp [ActiveJobSchema.parse] at h
  | vnum n => simp [ActiveJobSchema.parse] at h
  | vstr s => simp [ActiveJobSchema.parse] at h
  | varr l => simp [ActiveJobSchema.parse] at h
  | verr m => simp [ActiveJobSchema.parse] at h

def wrappedPayload (v : Value) : Value :=
  .vobj [("source", v), ("__prepared", .vbool true), ("__state", .vobj []),
         ("__attempts", .varr []), ("__step_attempts", .varr [])]

theorem parse_wrap (v : Value) :
    ActiveJobSchema.parse (.vobj [("source", v), ("__prepared", .vbool true)])
      = some (wrappedPayload v) := rfl

theorem parse_wrapped_idem (v : Value) :
    ActiveJobSchema.parse (wrappedPayload v) = some (wrappedPayload v) := rfl

theorem preparedFlag_wrapped (v : Value) : preparedFlag (wrappedPayload v) = true := rfl

def DataOK (d : JobData) : Prop :=
  ∀ p ∈ d.state, isStatusString p.2.status = true

theorem mem_setStep (l : List (String × StepState)) (k : String) (st : StepState)
    (q : String × StepState) (hq : q ∈ setStep l k st) :
    q = (k, st) ∨ q ∈ l := by
  induction l with
  | nil => simp [setStep] at hq; simp [hq]
  | cons p t ih =>
    simp only [setStep] at hq
    by_cases hk : k = p.1
    · simp only [hk, if_true] at hq
      rcases List.mem_cons.mp hq with hq | hq
      · left; rw [hq, hk]
      · right; exact List.mem_cons_of_mem p hq
    · simp only [hk, if_false] at hq
      rcases List.mem_cons.mp hq with hq | hq
      · right; exact hq ▸ List.mem_cons_self p t
      · rcases ih hq with hq2 | hq2
        · left; exact hq2
        · right; exact List.mem_cons_of_mem p hq2

theorem DataOK_set (d : JobData) (id : String) (st : StepState)
    (h : DataOK d) (hst : isStatusString st.status = true) :
    DataOK {d with state := setStep d.state id st} := by
  intro q hq
  rcases mem_setStep d.state id st q hq with hq2 | hq2
  · rw [hq2]; exact hst
  · exact h q hq2

theorem setState_data (rs : Rs) (id : String) (st : StepState) :
    (StepRunner.setState rs id st).world.data
      = {rs.world.data with state := setStep rs.world.data.state id st} := rfl

theorem executeMain_pres (opts : StepOpts) (rs : Rs) (h : DataOK rs.world.data) :
    DataOK (StepRunner.executeMain opts rs).1.world.data := by
  unfold StepRunner.executeMain
  simp only [RunnerContext.stepAttempt, StepRunner.setState, appendOp,
    ContextLogger.log, ContextAttempt.completeAt, ContextAttempt.failAt]
  repeat' split
  all_goals try simp only
  all_goals first
    | exact h
    | exact DataOK_set _ _ _ h rfl

theorem execute_pres (purpose : String) (opts : StepOpts) (rs : Rs) (h : DataOK rs.world.data) :
    DataOK (StepRunner.execute purpose opts rs).1.world.data := by
  unfold StepRunner.execute
  simp only [RunnerContext.registerStep, ContextLogger.log, StepRunner.setState]
  repeat' split
  all_goals try simp only
  all_goals first
    | exact h
    | exact executeMain_pres _ _ h
    | exact executeMain_pres _ _ (DataOK_set _ _ _ h rfl)

theorem executeStep_pres (purpose : String) (opts : StepOpts) (rs : Rs) (h : DataOK rs.world.data) :
    DataOK (JobRunner.executeStep purpose opts rs).1.world.data := by
  unfold JobRunner.executeStep
  simp only [ContextLogger.log]
  repeat' split
  all_goals try simp only
  all_goals first
    | exact h
    | exact execute_pres _ _ _ h

theorem runnerStep_pres (purpose id : String) (hnd : Except Value Value) (rs : Rs)
    (h : DataOK rs.world.data) :
    DataOK (JobRunner.step purpose id hnd rs).1.world.data := by
  unfold JobRunner.step
  cases hE : JobRunner.executeStep purpose {id := id, type := "step", handler := some hnd} rs with
  | mk rs1 res =>
    have hh : DataOK rs1.world.data := by
      have hx := executeStep_pres purpose {id := id, type := "step", handler := some hnd} rs h
      rw [hE] at hx
      exact hx
    try simp only [hE]
    repeat' split
    all_goals simp_all

theorem runSleep_pres (opts : StepOpts) (rs : Rs) (h : DataOK rs.world.data) :
    DataOK (StepRunner.runSleep opts rs).1.world.data := by
  unfold StepRunner.runSleep
  simp only [ContextLogger.log, appendOp]
  repeat' split
  all_goals try simp only
  all_goals exact h

theorem runnerSleep_pres (purpose id : String) (d : Int) (rs : Rs)
    (h : DataOK rs.world.data) :
    DataOK (JobRunner.sleep purpose id d rs).1.world.data := by
  unfold JobRunner.sleep
  cases hE : JobRunner.executeStep purpose {id := id, type := "sleep", duration := some d} rs with
  | mk rs1 res =>
    have hh : DataOK rs1.world.data := by
      have hx := executeStep_pres purpose {id := id, type := "sleep", duration := some d} rs h
      rw [hE] at hx
      exact hx
    try simp only [hE]
    repeat' split
    all_goals first
      | (simp_all; done)
      | (refine runSleep_pres _ _ ?_; simp_all)

/-! ## Claims -/

/-- C1: Idempotent step memoization.  For any job state whose stored step
`id` has status `"completed"`, calling the step primitive again with purpose
`"execute"` leaves the backend world untouched (no handler side effects, no
persistence), returns the cached `StepState.result` (through the engine's
`?? null` / `??` coalescing), is entirely independent of the supplied
handler (the user function is never invoked), and `JobRunner.#executeStep`
reports `ran = false` with the cached result. -/
theorem claim_C1_step_memoization (rs : Rs) (id : String) (st : StepState)
    (h h2 : Except Value Value)
    (hst : lookupStep rs.world.data.state id = some st)
    (hc : st.status = "completed") :
    (JobRunner.step "execute" id h rs).1.world = rs.world ∧
    (JobRunner.step "execute" id h rs).2 = .ok (jsCoalesce (some (jsOrNull st.result)) none) ∧
    JobRunner.step "execute" id h rs = JobRunner.step "execute" id h2 rs ∧
    (JobRunner.executeStep "execute" {id := id, type := "step", handler := some h} rs).2 =
      .ok {success := true, ran := false,
           prepared := JobRunner.prepareStep "execute" {id := id, type := "step", handler := some h} rs,
           cachedResult := some (jsOrNull st.result)} := by
  simp [JobRunner.step, JobRunner.executeStep, JobRunner.prepareStep, StepRunner.getState,
        StepRunner.canRun, hst, hc, ContextLogger.log, jsCoalesce, jsOrNull]

/-- C1 witness: the memoization theorem applied to a concrete job whose step
`"s1"` is completed with cached result `"X"`; two different handlers (one
returning `"other"`, one throwing `"boom"`) give identical outcomes. -/
theorem claim_C1_step_memoization_witness :
    (JobRunner.step "execute" "s1" (.ok (.vstr "other")) rsMemo).1.world = rsMemo.world ∧
    (JobRunner.step "execute" "s1" (.ok (.vstr "other")) rsMemo).2 =
      .ok (jsCoalesce (some (jsOrNull stCompleted.result)) none) ∧
    JobRunner.step "execute" "s1" (.ok (.vstr "other")) rsMemo =
      JobRunner.step "execute" "s1" (.error (.vstr "boom")) rsMemo ∧
    (JobRunner.executeStep "execute"
        {id := "s1", type := "step", handler := some (.ok (.vstr "other"))} rsMemo).2 =
      .ok {success := true, ran := false,
           prepared := JobRunner.prepareStep "execute"
             {id := "s1", type := "step", handler := some (.ok (.vstr "other"))} rsMemo,
           cachedResult := some (jsOrNull stCompleted.result)} :=
  claim_C1_step_memoization rsMemo "s1" stCompleted (.ok (.vstr "other")) (.error (.vstr "boom"))
    rfl rfl

/-- C7: First-touch wrapping is idempotent.  Parsing a raw payload whose
`__prepared` flag is false wraps it as `{source: payload, __prepared: true}`
(with empty state and attempt collections), and preparing any
already-prepared result again returns it unchanged: `prepare` composed with
itself equals `prepare`. -/
theorem claim_C7_prepare_first_touch_idempotent :
    (∀ v p, ActiveJobSchema.parse v = some p → preparedFlag p = false →
       ActiveJob.prepare v = some (wrappedPayload v)) ∧
    (∀ v w, ActiveJob.prepare v = some w → ActiveJob.prepare w = some w) := by
  constructor
  · intro v p hp hflag
    simp [ActiveJob.prepare, hp, hflag, parse_wrap]
  · intro v w h
    simp only [ActiveJob.prepare] at h
    cases hpv : ActiveJobSchema.parse v with
    | none => simp only [hpv] at h; simp at h
    | some p =>
      simp only [hpv] at h
      by_cases hflag : preparedFlag p = true
      · simp only [hflag, if_true] at h
        simp only [Option.some_inj] at h
        subst h
        simp [ActiveJob.prepare, (activeJobParse_idem v p hpv).1, hflag]
      · simp only [Bool.not_eq_true] at hflag
        simp only [hflag] at h
        simp only [Bool.false_eq_true, if_false, parse_wrap, Option.some_inj] at h
        subst h
        simp [ActiveJob.prepare, parse_wrapped_idem, preparedFlag_wrapped]

/-- C7 witness: preparing the raw payload `{x: 5}` wraps it once, and
preparing the wrapped payload again returns it unchanged. -/
theorem claim_C7_prepare_first_touch_idempotent_witness :
    ActiveJob.prepare (.vobj [("x", .vnum 5)])
      = some (wrappedPayload (.vobj [("x", .vnum 5)])) ∧
    ActiveJob.prepare (wrappedPayload (.vobj [("x", .vnum 5)]))
      = some (wrappedPayload (.vobj [("x", .vnum 5)])) := by
  have h1 := claim_C7_prepare_first_touch_idempotent.1 (.vobj [("x", .vnum 5)])
    (.vobj [("__prepared", .vbool false), ("__state", .vobj []),
            ("__attempts", .varr []), ("__step_attempts", .varr [])]) rfl rfl
  have h2 := claim_C7_prepare_first_touch_idempotent.2 (.vobj [("x", .vnum 5)])
    (wrappedPayload (.vobj [("x", .vnum 5)])) h1
  exact ⟨h1, h2⟩

/-- C8: Immediate per-step persistence.  Whenever a plain step's handler
finishes (returning `v` or throwing `e`) on a step that is not already
completed, the returned world's payload holds the step's updated state
(status `"completed"` or `"failed"`, with the result or stored null), and
the last backend operation issued is an `updateData` carrying exactly that
whole payload — persistence happened before control returned to the
workflow function. -/
theorem claim_C8_step_outcome_persisted (rs : Rs) (id : String) (hnd : Except Value Value)
    (hnc : ∀ st, lookupStep rs.world.data.state id = some st → ¬ st.status = "completed") :
    (∃ st, lookupStep (JobRunner.step "execute" id hnd rs).1.world.data.state id = some st ∧
       st.status = (match hnd with | .ok _ => "completed" | .error _ => "failed") ∧
       st.result = (match hnd with | .ok v => some v | .error _ => some .vnull)) ∧
    (JobRunner.step "execute" id hnd rs).1.world.ops.getLast? =
      some (.updateData (JobRunner.step "execute" id hnd rs).1.world.data) := by
  cases hlook : lookupStep rs.world.data.state id with
  | none =>
    cases hnd with
    | ok v =>
      refine ⟨⟨{pendingState id with status := "completed", result := some v}, ?_, rfl, rfl⟩, ?_⟩ <;>
        simp [JobRunner.step, JobRunner.executeStep, JobRunner.prepareStep, StepRunner.getState,
              StepRunner.canRun, hlook, StepRunner.execute, StepRunner.executeMain,
              StepRunner.setState, RunnerContext.registerStep, RunnerContext.stepAttempt,
              ContextLogger.log, ContextAttempt.completeAt, ContextAttempt.failAt, appendOp,
              lookupStep_setStep_self, caughtStatus, caughtIsFalsy, caughtErrorIsError,
              StepRunner.runStep, pendingState]
    | error e =>
      refine ⟨⟨{pendingState id with status := "failed", error := some e, result := some .vnull},
          ?_, rfl, rfl⟩, ?_⟩ <;>
        simp [JobRunner.step, JobRunner.executeStep, JobRunner.prepareStep, StepRunner.getState,
              StepRunner.canRun, hlook, StepRunner.execute, StepRunner.executeMain,
              StepRunner.setState, RunnerContext.registerStep, RunnerContext.stepAttempt,
              ContextLogger.log, ContextAttempt.completeAt, ContextAttempt.failAt, appendOp,
              lookupStep_setStep_self, caughtStatus, caughtIsFalsy, caughtErrorIsError,
              StepRunner.runStep, pendingState]
  | some st0 =>
    have hnc2 := hnc st0 hlook
    cases hnd with
    | ok v =>
      refine ⟨⟨{st0 with status := "completed", result := some v}, ?_, rfl, rfl⟩, ?_⟩ <;>
        simp [JobRunner.step, JobRunner.executeStep, JobRunner.prepareStep, StepRunner.getState,
              StepRunner.canRun, hlook, hnc2, StepRunner.execute, StepRunner.executeMain,
              StepRunner.setState, RunnerContext.registerStep, RunnerContext.stepAttempt,
              ContextLogger.log, ContextAttempt.completeAt, ContextAttempt.failAt, appendOp,
              lookupStep_setStep_self, caughtStatus, caughtIsFalsy, caughtErrorIsError,
              StepRunner.runStep]
    | error e =>
      refine ⟨⟨{st0 with status := "failed", error := some e, result := some .vnull},
          ?_, rfl, rfl⟩, ?_⟩ <;>
        simp [JobRunner.step, JobRunner.executeStep, JobRunner.prepareStep, StepRunner.getState,
              StepRunner.canRun, hlook, hnc2, StepRunner.execute, StepRunner.executeMain,
              StepRunner.setState, RunnerContext.registerStep, RunnerContext.stepAttempt,
              ContextLogger.log, ContextAttempt.completeAt, ContextAttempt.failAt, appendOp,
              lookupStep_setStep_self, caughtStatus, caughtIsFalsy, caughtErrorIsError,
              StepRunner.runStep]

/-- C8 witness: running a fresh failing step persists the failed state and
ends with an `updateData` of the final payload. -/
theorem claim_C8_step_outcome_persisted_witness :
    (∃ st, lookupStep (JobRunner.step "execute" "s1" (.error (.vstr "boom")) rsFresh).1.world.data.state "s1"
        = some st ∧
       st.status = (match (.error (.vstr "boom") : Except Value Value) with
                    | .ok _ => "completed" | .error _ => "failed") ∧
       st.result = (match (.error (.vstr "boom") : Except Value Value) with
                    | .ok v => some v | .error _ => some .vnull)) ∧
    (JobRunner.step "execute" "s1" (.error (.vstr "boom")) rsFresh).1.world.ops.getLast? =
      some (.updateData (JobRunner.step "execute" "s1" (.error (.vstr "boom")) rsFresh).1.world.data) :=
  claim_C8_step_outcome_persisted rsFresh "s1" (.error (.vstr "boom"))
    (fun st hst => by simp [rsFresh, w0, jd0, lookupStep] at hst)

/-- C2 counterexample: on the first invocation that reaches the sleep step
`"s1"`, the engine stores status `"completed"` — not `"delayed"` as the
claim states.  (The claim's "delayed" behaviour exists only in the
disconnected `StepExecutor.executeSleep` of executor.ts; the dispatcher-wired
`StepRunner` marks the sleep step completed before parking the job, and the
payload schema has no `"delayed"` status at all.) -/
theorem claim_C2_sleep_delayed_status_counterexample :
    (lookupStep sleepInv1.1.world.data.state "s1").map StepState.status = some "completed" ∧
    ¬ (lookupStep sleepInv1.1.world.data.state "s1").map StepState.status = some "delayed" := by
  constructor
  · rfl
  · intro h
    rw [show (lookupStep sleepInv1.1.world.data.state "s1").map StepState.status
          = some "completed" from rfl] at h
    simp at h

/-- C2 (amended): sleep suspend/resume protocol of the dispatcher-wired
engine.  First pass (no stored state, non-zero duration): the engine stores
the sleep step with status `"completed"`, requests `moveToDelayed(now + d)`
from the backend, and raises the suspend signal (`DelayedError`).  Resume
pass (stored status `"completed"`): the sleep returns immediately with no
backend request and no suspend signal, and the workflow proceeds past it —
witnessed end-to-end by the two concrete invocations of `wfSleepStep`: the
first ends in `DelayedError` without reaching step `"s2"`, the second
completes `"s2"` and issues no further `moveToDelayed`. -/
theorem claim_C2_sleep_suspend_resume_amended :
    (∀ rs id d, lookupStep rs.world.data.state id = none → ¬ d = 0 →
       (JobRunner.sleep "execute" id d rs).2 = .error .delayedError ∧
       (lookupStep (JobRunner.sleep "execute" id d rs).1.world.data.state id).map StepState.status
         = some "completed" ∧
       BOp.moveToDelayed (rs.world.now + d) ∈ (JobRunner.sleep "execute" id d rs).1.world.ops) ∧
    (∀ rs id d st, lookupStep rs.world.data.state id = some st → st.status = "completed" →
       (JobRunner.sleep "execute" id d rs).2 = .ok () ∧
       (JobRunner.sleep "execute" id d rs).1.world = rs.world) ∧
    sleepInv1.2 = .error .delayedError ∧
    lookupStep sleepInv1.1.world.data.state "s2" = none ∧
    sleepInv2.2 = .ok (some (.vstr "r2")) ∧
    (lookupStep sleepInv2.1.world.data.state "s2").map StepState.status = some "completed" ∧
    countMoveDelayed sleepInv2.1.world.ops = countMoveDelayed sleepInv1.1.world.ops := by
  refine ⟨?_, ?_, rfl, rfl, rfl, rfl, rfl⟩
  · intro rs id d hst hd
    simp [JobRunner.sleep, JobRunner.executeStep, JobRunner.prepareStep, StepRunner.getState,
          StepRunner.canRun, hst, hd, StepRunner.execute, StepRunner.executeMain,
          StepRunner.setState, RunnerContext.registerStep, RunnerContext.stepAttempt,
          ContextLogger.log, appendOp, lookupStep_setStep_self, caughtStatus, caughtIsFalsy,
          caughtErrorIsError, execHasSleep, StepRunner.runSleep, pendingState]
  · intro rs id d st hst hc
    simp [JobRunner.sleep, JobRunner.executeStep, JobRunner.prepareStep, StepRunner.getState,
          StepRunner.canRun, hst, hc, ContextLogger.log, execHasSleep]

/-- C2 witness: the amended protocol applied to a fresh job ("s1", 1000ms)
for the first pass, and to the completed fixture for the resume pass. -/
theorem claim_C2_sleep_suspend_resume_amended_witness :
    ((JobRunner.sleep "execute" "s1" 1000 rsFresh).2 = .error .delayedError ∧
     (lookupStep (JobRunner.sleep "execute" "s1" 1000 rsFresh).1.world.data.state "s1").map StepState.status
       = some "completed" ∧
     BOp.moveToDelayed (rsFresh.world.now + 1000) ∈ (JobRunner.sleep "execute" "s1" 1000 rsFresh).1.world.ops) ∧
    ((JobRunner.sleep "execute" "s1" 77 rsMemo).2 = .ok () ∧
     (JobRunner.sleep "execute" "s1" 77 rsMemo).1.world = rsMemo.world) :=
  ⟨claim_C2_sleep_suspend_resume_amended.1 rsFresh "s1" 1000 rfl (by decide),
   claim_C2_sleep_suspend_resume_amended.2.1 rsMemo "s1" 77 stCompleted rfl rfl⟩

/-- C3: the finalization block of `ActionDispatcher.processJob` is NOT
guaranteed: the dispatcher awaits the user handler outside any try/finally,
so when the handler throws (here: the single step's handler throws
`"boom"`, which the engine re-raises as `Error("Step s1 failed.")`), the
invocation ends with the error and the block that appends the job attempt
and the step attempts and calls `updateData` never runs: the persisted
payload keeps empty `__attempts`/`__step_attempts` although one step
attempt sits in the in-memory context, and no `updateData` issued during
the invocation carries any attempt record. -/
theorem claim_C3_finalization_skipped_on_throw :
    (ActionDispatcher.processJob wfFail w0).2 =
      .error (.thrownVal (.verr "Step s1 failed.")) ∧
    (ActionDispatcher.processJob wfFail w0).1.world.data.attempts = [] ∧
    (ActionDispatcher.processJob wfFail w0).1.world.data.stepAttempts = [] ∧
    (ActionDispatcher.processJob wfFail w0).1.ctx.stepAttempts.length = 1 ∧
    ((ActionDispatcher.processJob wfFail w0).1.world.ops.all
      (fun o => match o with
        | .updateData d => d.attempts.isEmpty && d.stepAttempts.isEmpty
        | _ => true)) = true := by
  exact ⟨rfl, rfl, rfl, rfl, rfl⟩

/-- C4 counterexample: a failing step handler does NOT increment the step's
`attempts` counter — after the failing invocation the stored counter is
still 0, not 1: `StepRunner` never touches `attempts` anywhere. -/
theorem claim_C4_attempts_not_incremented_counterexample :
    (lookupStep (ActionDispatcher.processJob wfFail w0).1.world.data.state "s1").map StepState.attempts
      = some 0 ∧
    ¬ (lookupStep (ActionDispatcher.processJob wfFail w0).1.world.data.state "s1").map StepState.attempts
      = some 1 := by
  constructor
  · rfl
  · intro h
    rw [show (lookupStep (ActionDispatcher.processJob wfFail w0).1.world.data.state "s1").map StepState.attempts
          = some 0 from rfl] at h
    simp at h

/-- C4 (amended): when a step handler throws, the stored `StepState` is set
to status `"failed"` with the error stored (and `result` null), and the
`attempts` counter is left unchanged (it stays at its prior value; 0 for a
freshly created step).  Consequently, in the A/B/C replay scenario where B
fails on the first invocation and succeeds on the second, the final JobState
shows A, B, C all completed with B's `attempts` equal to 0 (not 2). -/
theorem claim_C4_step_failure_semantics_amended :
    (∀ rs id st e, lookupStep rs.world.data.state id = some st → ¬ st.status = "completed" →
       lookupStep (JobRunner.step "execute" id (.error e) rs).1.world.data.state id =
         some {st with status := "failed", error := some e, result := some .vnull}) ∧
    (∀ rs id e, lookupStep rs.world.data.state id = none →
       lookupStep (JobRunner.step "execute" id (.error e) rs).1.world.data.state id =
         some {pendingState id with status := "failed", error := some e, result := some .vnull}) ∧
    (lookupStep abcInv2.1.world.data.state "A").map StepState.status = some "completed" ∧
    (lookupStep abcInv2.1.world.data.state "B").map StepState.status = some "completed" ∧
    (lookupStep abcInv2.1.world.data.state "C").map StepState.status = some "completed" ∧
    (lookupStep abcInv2.1.world.data.state "B").map StepState.attempts = some 0 := by
  refine ⟨?_, ?_, rfl, rfl, rfl, rfl⟩
  · intro rs id st e hst hnc
    simp [JobRunner.step, JobRunner.executeStep, JobRunner.prepareStep, StepRunner.getState,
          StepRunner.canRun, hst, hnc, StepRunner.execute, StepRunner.executeMain,
          StepRunner.setState, RunnerContext.registerStep, RunnerContext.stepAttempt,
          ContextLogger.log, ContextAttempt.failAt, appendOp, lookupStep_setStep_self,
          caughtStatus, caughtIsFalsy, caughtErrorIsError, StepRunner.runStep]
  · intro rs id e hst
    simp [JobRunner.step, JobRunner.executeStep, JobRunner.prepareStep, StepRunner.getState,
          StepRunner.canRun, hst, StepRunner.execute, StepRunner.executeMain,
          StepRunner.setState, RunnerContext.registerStep, RunnerContext.stepAttempt,
          ContextLogger.log, ContextAttempt.failAt, appendOp, lookupStep_setStep_self,
          caughtStatus, caughtIsFalsy, caughtErrorIsError, StepRunner.runStep, pendingState]

/-- C4 witness: the amended failure semantics applied to a fresh step and to
an existing failed step (whose attempts counter 0 is preserved). -/
theorem claim_C4_step_failure_semantics_amended_witness :
    lookupStep (JobRunner.step "execute" "s1" (.error (.vstr "boom")) rsFresh).1.world.data.state "s1" =
      some {pendingState "s1" with status := "failed", error := some (.vstr "boom"), result := some .vnull} ∧
    lookupStep (JobRunner.step "execute" "s1" (.error (.vstr "again"))
        (JobRunner.step "execute" "s1" (.error (.vstr "boom")) rsFresh).1).1.world.data.state "s1" =
      some {pendingState "s1" with status := "failed", error := some (.vstr "again"), result := some .vnull} := by
  have h1 := claim_C4_step_failure_semantics_amended.2.1 rsFresh "s1" (.vstr "boom") rfl
  have h2 := claim_C4_step_failure_semantics_amended.1
    (JobRunner.step "execute" "s1" (.error (.vstr "boom")) rsFresh).1 "s1"
    {pendingState "s1" with status := "failed", error := some (.vstr "boom"), result := some .vnull}
    (.vstr "again") h1 (by decide)
  exact ⟨h1, by rw [h2]⟩

/-- C5 counterexample: a StepState with status `"delayed"` is NOT
representable — `StatusSchema` is the four-element enum
`["pending", "active", "completed", "failed"]`, so the job-payload
validation rejects `"delayed"` instead of round-tripping it. -/
theorem claim_C5_delayed_status_rejected_counterexample :
    StepStateSchema.parse (.vobj [("slug", .vstr "s1"), ("status", .vstr "delayed")]) = none ∧
    StatusSchema.parse (some (.vstr "delayed")) = none ∧
    isStatusString "delayed" = false := by
  exact ⟨rfl, rfl, rfl⟩

/-- C5 (amended): every StepState accepted by the job-payload validation has
a status drawn from the four-element set {pending, active, completed,
failed} and survives a validate round-trip unchanged; and every payload the
engine primitives produce keeps all stored step statuses inside that same
four-element set. -/
theorem claim_C5_status_domain_amended :
    (∀ v w, StepStateSchema.parse v = some w →
       (∃ s, stepStatusOf w = some (.vstr s) ∧ isStatusString s = true) ∧
       StepStateSchema.parse w = some w) ∧
    (∀ purpose id hnd rs, DataOK rs.world.data →
       DataOK (JobRunner.step purpose id hnd rs).1.world.data) ∧
    (∀ purpose id d rs, DataOK rs.world.data →
       DataOK (JobRunner.sleep purpose id d rs).1.world.data) := by
  refine ⟨?_, ?_, ?_⟩
  · intro v w h
    obtain ⟨h1, h2⟩ := stepStateParse_idem v w h
    exact ⟨h2, h1⟩
  · intro purpose id hnd rs h
    exact runnerStep_pres purpose id hnd rs h
  · intro purpose id d rs h
    exact runnerSleep_pres purpose id d rs h

/-- C5 witness: the amended domain property applied to a concrete accepted
StepState (status `"failed"`) and to a concrete engine run from the empty
state. -/
theorem claim_C5_status_domain_amended_witness :
    ((∃ s, stepStatusOf (.vobj [("slug", .vstr "a"), ("status", .vstr "failed"), ("attempts", .vnum 0)])
        = some (.vstr s) ∧ isStatusString s = true) ∧
     StepStateSchema.parse (.vobj [("slug", .vstr "a"), ("status", .vstr "failed"), ("attempts", .vnum 0)])
        = some (.vobj [("slug", .vstr "a"), ("status", .vstr "failed"), ("attempts", .vnum 0)])) ∧
    DataOK (JobRunner.step "execute" "s1" (.ok (.vstr "r")) rsFresh).1.world.data ∧
    DataOK (JobRunner.sleep "execute" "z1" 500 rsFresh).1.world.data := by
  refine ⟨?_, ?_, ?_⟩
  · exact claim_C5_status_domain_amended.1
      (.vobj [("slug", .vstr "a"), ("status", .vstr "failed"), ("attempts", .vnum 0)])
      (.vobj [("slug", .vstr "a"), ("status", .vstr "failed"), ("attempts", .vnum 0)]) rfl
  · exact claim_C5_status_domain_amended.2.1 "execute" "s1" (.ok (.vstr "r")) rsFresh
      (by intro p hp; simp [rsFresh, w0, jd0] at hp)
  · exact claim_C5_status_domain_amended.2.2 "execute" "z1" 500 rsFresh
      (by intro p hp; simp [rsFresh, w0, jd0] at hp)

/-- C6 counterexample: a log entry written through the execution context's
logger is buffered in memory but never reaches the persisted JobState — two
invocations that differ only by a `ctx.log.info("hello")` call produce a
buffered entry in one context yet byte-identical persisted payloads and
identical backend operation sequences (`ActiveJobSchema` has no field for
logs at all). -/
theorem claim_C6_logs_not_persisted_counterexample :
    ((ActionDispatcher.processJob wfLog w0).1.ctx.logs.any
      (fun e => e.message == "hello")) = true ∧
    (ActionDispatcher.processJob wfLog w0).1.world.data =
      (ActionDispatcher.processJob wfNoLog w0).1.world.data ∧
    (ActionDispatcher.processJob wfLog w0).1.world.ops =
      (ActionDispatcher.processJob wfNoLog w0).1.world.ops := by
  exact ⟨rfl, rfl, rfl⟩

/-- C6 (amended): log entries written through `ContextLogger.log` are
buffered in memory in write order, but the dispatcher's finalization
persists only the attempt records — `finalizeData` is independent of the
buffered logs, so the entries are never flushed into the persisted
JobState. -/
theorem claim_C6_logs_buffered_not_flushed_amended :
    (∀ rs lvl msg d, (ContextLogger.log rs lvl msg d).ctx.logs =
       rs.ctx.logs ++ [{level := lvl, message := msg, data := d}]) ∧
    (∀ dta ctx L now, ActionDispatcher.finalizeData dta {ctx with logs := L} now =
       ActionDispatcher.finalizeData dta ctx now) := by
  constructor
  · intro rs lvl msg d
    rfl
  · intro dta ctx L now
    rfl

/-- C9: on the first pass of a sleep step the engine issues a
`changePriority` request carrying `ActiveJob.getDelayedPriority` before the
suspend signal ends the invocation; the delayed priority defaults to 1 both
when the configuration has no `jobs.priority` section and when the parsed
`jobs.priority` object does not set `delayDefaultValue`. -/
theorem claim_C9_sleep_delayed_priority :
    (∀ rs id d, lookupStep rs.world.data.state id = none → ¬ d = 0 →
       BOp.changePriority (ActiveJob.getDelayedPriority rs.world.cfg)
         ∈ (JobRunner.sleep "execute" id d rs).1.world.ops ∧
       (JobRunner.sleep "execute" id d rs).2 = .error .delayedError) ∧
    ActiveJob.getDelayedPriority {priority := none} = 1 ∧
    (∀ kvs p, getKey kvs "delayDefaultValue" = none →
       ActionDispatcherConfigSchema.parsePriority (.vobj kvs) = some p →
       p.delayDefaultValue = 1) ∧
    ActionDispatcherConfigSchema.parsePriority (.vobj [("enabled", .vbool true)]) =
      some {enabled := true, defaultValue := 2, delayDefaultValue := 1} := by
  refine ⟨?_, rfl, ?_, rfl⟩
  · intro rs id d hst hd
    simp [JobRunner.sleep, JobRunner.executeStep, JobRunner.prepareStep, StepRunner.getState,
          StepRunner.canRun, hst, hd, StepRunner.execute, StepRunner.executeMain,
          StepRunner.setState, RunnerContext.registerStep, RunnerContext.stepAttempt,
          ContextLogger.log, appendOp, lookupStep_setStep_self, caughtStatus, caughtIsFalsy,
          caughtErrorIsError, execHasSleep, StepRunner.runSleep, pendingState]
  · intro kvs p hk hp
    simp only [ActionDispatcherConfigSchema.parsePriority, hk] at hp
    cases he : getKey kvs "enabled" <;> simp only [he] at hp
    case none => simp at hp
    case some ev =>
      cases ev <;> (try simp at hp)
      case vbool b =>
        cases hdv : (match getKey kvs "defaultValue" with
                     | none => some (2 : Int)
                     | some (.vnum n) => some n
                     | some _ => none : Option Int) <;> simp only [hdv] at hp
        case none => simp at hp
        case some dv =>
          simp only [Option.some_inj] at hp
          rw [← hp]

/-- C9 witness: the priority property applied to a fresh job with the
default configuration — the issued `changePriority` carries 1. -/
theorem claim_C9_sleep_delayed_priority_witness :
    (BOp.changePriority (ActiveJob.getDelayedPriority rsFresh.world.cfg)
       ∈ (JobRunner.sleep "execute" "s1" 1000 rsFresh).1.world.ops ∧
     (JobRunner.sleep "execute" "s1" 1000 rsFresh).2 = .error .delayedError) ∧
    ActiveJob.getDelayedPriority rsFresh.world.cfg = 1 := by
  refine ⟨claim_C9_sleep_delayed_priority.1 rsFresh "s1" 1000 rfl (by decide), ?_⟩
  exact claim_C9_sleep_delayed_priority.2.1

/-- C10: a sleep with duration 0 does not suspend the job: the sleep thunk's
guard treats the falsy duration 0 as missing and throws
`Error("Missing duration or type for #runSleep()")` instead of issuing a
`moveToDelayed` request and raising the suspend signal. -/
theorem claim_C10_zero_duration_sleep (rs : Rs) (id : String)
    (hst : lookupStep rs.world.data.state id = none) :
    (JobRunner.sleep "execute" id 0 rs).2 =
      .error (.thrownVal (.verr "Missing duration or type for #runSleep()")) ∧
    (∀ ts, BOp.moveToDelayed ts ∈ (JobRunner.sleep "execute" id 0 rs).1.world.ops →
      BOp.moveToDelayed ts ∈ rs.world.ops) ∧
    ¬ (JobRunner.sleep "execute" id 0 rs).2 = .error .delayedError := by
  refine ⟨?_, ?_, ?_⟩ <;>
    simp [JobRunner.sleep, JobRunner.executeStep, JobRunner.prepareStep, StepRunner.getState,
          StepRunner.canRun, hst, StepRunner.execute, StepRunner.executeMain,
          StepRunner.setState, RunnerContext.registerStep, RunnerContext.stepAttempt,
          ContextLogger.log, appendOp, lookupStep_setStep_self, caughtStatus, caughtIsFalsy,
          caughtErrorIsError, execHasSleep, StepRunner.runSleep, pendingState]

/-- C10 witness: the zero-duration sleep property on a fresh job: the plain
error is raised, no `moveToDelayed` is issued (the initial operation log is
empty) and no suspend signal occurs. -/
theorem claim_C10_zero_duration_sleep_witness :
    (JobRunner.sleep "execute" "s1" 0 rsFresh).2 =
      .error (.thrownVal (.verr "Missing duration or type for #runSleep()")) ∧
    (∀ ts, BOp.moveToDelayed ts ∈ (JobRunner.sleep "execute" "s1" 0 rsFresh).1.world.ops →
      BOp.moveToDelayed ts ∈ rsFresh.world.ops) ∧
    ¬ (JobRunner.sleep "execute" "s1" 0 rsFresh).2 = .error .delayedError :=
  claim_C10_zero_duration_sleep rsFresh "s1" rfl
